import Mathlib

set_option autoImplicit false

/-!
Verification of the maze-wars match state machine and message protocol.

The definitions below are a shallow embedding of the authoritative server
iteration of the repository (src/server/src/server/message_handlers.rs,
src/server/src/server/game.rs, the shared data model in src/shared/src,
and the SDL client loop in src/client/src/main.rs).

Modelling conventions:
* `f32` fields (coordinates, angles, weapon stats) are modelled as `Rat`;
  no handler in scope performs arithmetic on them, they are only copied,
  so the choice of carrier is irrelevant to every property proved here.
* `u32` health is modelled as `Nat`; Rust `saturating_sub` on `u32`
  coincides with truncated subtraction on `Nat` for all values.
* `HashMap<SocketAddr, Player>` is modelled as an association list with
  unique-key insert-or-replace semantics (`Registry.insert`), lookups
  (`Registry.find?`), and linear scans in list order standing in for the
  map's iteration order; no claim in scope depends on iteration order.
* `Instant` is modelled as a `Nat` timestamp threaded into the join
  handler, which is the only handler that reads the clock.
* Network sends are modelled as a list of `Output` values: `unicast`
  for `send_message` to one address, `broadcast` for `broadcast_message`
  to all registered players.
-/

namespace MazeWars

/-- Model of `shared::Position` (f32 coordinates as `Rat`); `Default` is all
zeros per src/shared/src/position.rs. -/
structure Position where
  x : Rat
  y : Rat
  z : Rat
  deriving DecidableEq

def Position.default : Position := { x := 0, y := 0, z := 0 }

/-- Model of the orientation type `shared::Rotation` (pitch, yaw, roll as
`Rat`); `Default` is all zeros per src/shared/src/rotation.rs. -/
structure Rotation where
  pitch : Rat
  yaw : Rat
  roll : Rat
  deriving DecidableEq

def Rotation.default : Rotation := { pitch := 0, yaw := 0, roll := 0 }

/-- Model of `shared::Weapon` (src/shared/src/weapon.rs). -/
structure Weapon where
  name : String
  damage : Nat
  fire_rate : Rat
  ammo_count : Nat
  range : Rat
  deriving DecidableEq

/-- The predefined pistol: `Weapon::pistol()` in src/shared/src/weapon.rs. -/
def Weapon.pistol : Weapon :=
  { name := "Pistol", damage := 25, fire_rate := Rat.mk' 3 2, ammo_count := 12,
    range := 30 }

/-- Model of `shared::Player` (src/shared/src/player.rs). -/
structure Player where
  username : String
  position : Position
  height : Nat
  rotation : Rotation
  health : Nat
  weapon : Weapon
  deriving DecidableEq

def Player.DEFAULT_HEIGHT : Nat := 180

/-- `Player::new` (src/shared/src/player.rs): records every argument. -/
def Player.new (u : String) (pos : Position) (ht : Nat) (rot : Rotation)
    (hp : Nat) (w : Weapon) : Player :=
  { username := u, position := pos, height := ht, rotation := rot,
    health := hp, weapon := w }

/-- Network addresses (`SocketAddr`) are opaque; only equality is used. -/
abbrev Addr := Nat

/-- Model of `HashMap<SocketAddr, Player>` as an association list. -/
abbrev Registry := List (Addr × Player)

/-- `HashMap::get` — first entry with the given key. -/
def Registry.find? : Registry → Addr → Option Player
  | [], _ => none
  | (b, q) :: rest, a => if b = a then some q else Registry.find? rest a

/-- `HashMap::insert` — replace the entry with the given key, or append a
fresh entry when the key is absent. -/
def Registry.insert : Registry → Addr → Player → Registry
  | [], a, p => [(a, p)]
  | (b, q) :: rest, a, p =>
      if b = a then (a, p) :: rest else (b, q) :: Registry.insert rest a p

/-- `HashMap::values` in iteration order. -/
def Registry.values (r : Registry) : List Player := r.map Prod.snd

/-- `state.players.values().any(|p| p.username == username)` — the duplicate
username check in `handle_join_game`. -/
def Registry.hasUsername (r : Registry) (u : String) : Bool :=
  (Registry.values r).any (fun p => p.username == u)

/-- `state.players.iter().find(|(_, p)| p.username == player_to_shoot)` —
target resolution in `handle_shoot`. -/
def Registry.findByUsername : Registry → String → Option (Addr × Player)
  | [], _ => none
  | (b, q) :: rest, u =>
      if q.username = u then some (b, q) else Registry.findByUsername rest u

/-- Model of `GameState` (src/server/src/server/game.rs). -/
inductive GameState where
  | waiting
  | inProgress
  | finished
  deriving DecidableEq

/-- Model of `Game` (src/server/src/server/game.rs); `Instant` becomes a
`Nat` timestamp. -/
structure Game where
  players : Registry
  state : GameState
  game_start_time : Option Nat
  maze_level : Nat
  deriving DecidableEq

/-- `Game::new`: empty registry, `Waiting`, timer unset; the randomly drawn
maze level is passed in as a parameter. -/
def Game.new (ml : Nat) : Game :=
  { players := [], state := GameState.waiting, game_start_time := none,
    maze_level := ml }

/-- Model of `shared::server::ServerMessage`
(src/shared/src/server/server_messages.rs). The handlers construct
`GameStart` without a payload (matching the server-local enum in
src/server/src/server/server_messages.rs); the `maze_level` payload of the
shared variant is not inspected by any property here, so the variant is
modelled without it. -/
inductive ServerMessage where
  | error (message : String)
  | joinGameError (message : String)
  | playersInLobby (player_count : Nat) (players : List String)
  | gameStart
  | playerMove (player_id : String) (pos : Position) (rot : Rotation)
      (yield_control : Rat)
  | playerDeath (player_id : String) (killer_id : Option String)
  | playerSpawn (player_id : String) (pos : Position)
  | healthUpdate (player_id : String) (health : Nat)
  | gameOver (winner : String)
  deriving DecidableEq

/-- A network send performed by a handler: `send_message` to one address or
`broadcast_message` to all registered players. -/
inductive Output where
  | unicast (a : Addr) (msg : ServerMessage)
  | broadcast (msg : ServerMessage)
  deriving DecidableEq

/-- The configured limits the handlers read from the `Server` value
(`self.min_players`, `self.max_players`). -/
structure Server where
  min_players : Nat
  max_players : Nat
  deriving DecidableEq

/-- The fresh record `handle_join_game` builds:
`Player::new(username, Default::default(), Player::DEFAULT_HEIGHT,
Default::default(), 100, Weapon::pistol())`. -/
def fresh_player (u : String) : Player :=
  Player.new u Position.default Player.DEFAULT_HEIGHT Rotation.default 100
    Weapon.pistol

/-- Model of `Server::handle_join_game`
(src/server/src/server/message_handlers.rs):
duplicate-username check, capacity check, insert, countdown arming with an
immediate `GameStart` broadcast, then the `PlayersInLobby` broadcast. -/
def handle_join_game (srv : Server) (g : Game) (now : Nat) (addr : Addr)
    (u : String) : Game × List Output :=
  if Registry.hasUsername g.players u = true then
    (g, [Output.unicast addr (ServerMessage.joinGameError "Username already taken")])
  else if srv.max_players ≤ g.players.length then
    (g, [Output.unicast addr (ServerMessage.joinGameError "Server is full")])
  else
    let players1 := Registry.insert g.players addr (fresh_player u)
    let g1 : Game := { g with players := players1 }
    let cnt := players1.length
    let lobby := Output.broadcast
      (ServerMessage.playersInLobby cnt ((Registry.values players1).map Player.username))
    if srv.min_players ≤ cnt ∧ cnt ≤ srv.max_players ∧
        g1.state = GameState.waiting ∧ g1.game_start_time = none then
      let g2 : Game := { g1 with game_start_time := some now }
      (g2, [Output.broadcast ServerMessage.gameStart, lobby])
    else
      (g1, [lobby])

/-- Model of `Server::handle_move`
(src/server/src/server/message_handlers.rs): silently drop unregistered
senders, otherwise store the transform and echo it in a `PlayerMove`
broadcast. -/
def handle_move (g : Game) (addr : Addr) (pos : Position) (rot : Rotation)
    (yc : Rat) : Game × List Output :=
  match Registry.find? g.players addr with
  | none => (g, [])
  | some p =>
      let p1 : Player := { p with position := pos, rotation := rot }
      ({ g with players := Registry.insert g.players addr p1 },
       [Output.broadcast (ServerMessage.playerMove p.username pos rot yc)])

/-- Model of `Server::handle_shoot`
(src/server/src/server/message_handlers.rs): resolve shooter by address and
target by username (silent drop on failure), apply saturating damage of 10,
broadcast `HealthUpdate`, broadcast `PlayerDeath` when the new health is 0,
and broadcast `GameOver` when exactly one registered player is alive. -/
def handle_shoot (g : Game) (addr : Addr) (player_to_shoot : String) :
    Game × List Output :=
  match Registry.find? g.players addr with
  | none => (g, [])
  | some shooter =>
      match Registry.findByUsername g.players player_to_shoot with
      | none => (g, [])
      | some (target_addr, tp) =>
          let new_health := tp.health - 10
          let tp1 : Player := { tp with health := new_health }
          let g1 : Game := { g with players := Registry.insert g.players target_addr tp1 }
          let msgs1 := [Output.broadcast (ServerMessage.healthUpdate tp.username new_health)]
          let msgs2 :=
            if new_health = 0 then
              msgs1 ++ [Output.broadcast
                (ServerMessage.playerDeath tp.username (some shooter.username))]
            else msgs1
          match (Registry.values g1.players).filter (fun p => 0 < p.health) with
          | [w] => (g1, msgs2 ++ [Output.broadcast (ServerMessage.gameOver w.username)])
          | _ => (g1, msgs2)

/-- Inbound client-to-server events
(`shared::server::ClientMessage` in src/shared/src/server/client_messages.rs),
dispatched to the corresponding handler. -/
inductive Event where
  | join (addr : Addr) (u : String)
  | move (addr : Addr) (pos : Position) (rot : Rotation) (yc : Rat)
  | shoot (addr : Addr) (target : String)
  deriving DecidableEq

/-- One dispatch step of the server loop at timestamp `now`. -/
def step (srv : Server) (g : Game) (now : Nat) : Event → Game × List Output
  | Event.join a u => handle_join_game srv g now a u
  | Event.move a pos rot yc => handle_move g a pos rot yc
  | Event.shoot a t => handle_shoot g a t

/-- Processing a whole timed run of events, tagging each send with the
timestamp of the event that produced it. -/
def run (srv : Server) : Game → List (Nat × Event) → Game × List (Nat × Output)
  | g, [] => (g, [])
  | g, (t, e) :: rest =>
      let r := step srv g t e
      let r2 := run srv r.1 rest
      (r2.1, r.2.map (fun o => (t, o)) ++ r2.2)

/-- Timestamps of the events at which the registry size first climbs from
below `min_players` to at least `min_players` while the match is `Waiting` —
the moments the spec's countdown is armed. -/
def reach_min_times (srv : Server) : Game → List (Nat × Event) → List Nat
  | _, [] => []
  | g, (t, e) :: rest =>
      let r := step srv g t e
      (if g.players.length < srv.min_players ∧
          srv.min_players ≤ r.1.players.length ∧
          g.state = GameState.waiting then [t] else []) ++
        reach_min_times srv r.1 rest

/-- Timestamps at which a `GameStart` broadcast was sent during a run. -/
def game_start_times (outs : List (Nat × Output)) : List Nat :=
  outs.filterMap (fun o =>
    if o.2 = Output.broadcast ServerMessage.gameStart then some o.1 else none)

/-- The winner names carried by `GameOver` broadcasts, in send order. -/
def game_over_list : List Output → List String
  | [] => []
  | Output.broadcast (ServerMessage.gameOver w) :: rest => w :: game_over_list rest
  | _ :: rest => game_over_list rest

/-- Usernames of the registered players with positive health, in the
registry's iteration order. -/
def alive_usernames (g : Game) : List String :=
  ((Registry.values g.players).filter (fun p => 0 < p.health)).map Player.username

/-- Whether an output is a `PlayerDeath` broadcast. -/
def is_death_msg : Output → Bool
  | Output.broadcast (ServerMessage.playerDeath _ _) => true
  | _ => false

/-- Number of `PlayerDeath` broadcasts in a handler's output. -/
def death_count (outs : List Output) : Nat := (outs.filter is_death_msg).length

/-- The trailing `GameOver` broadcast of `handle_shoot`: sent exactly when
the alive-player list has exactly one element, naming that player. -/
def game_over_tail (alive : List Player) : List Output :=
  match alive with
  | [w] => [Output.broadcast (ServerMessage.gameOver w.username)]
  | _ => []

/-- The singleton survivor list: `[w]` when the name list is exactly `[w]`,
else empty. -/
def single_survivor (names : List String) : List String :=
  match names with
  | [w] => [w]
  | _ => []

/-- Whether an output is a `JoinGameError` unicast. -/
def is_join_error : Output → Bool
  | Output.unicast _ (ServerMessage.joinGameError _) => true
  | _ => false

/-- C1 as stated by the spec, as a decidable predicate on a run: every
`GameStart` broadcast of the run is sent at least 5 seconds after each
moment the registry first reaches `min_players` while `Waiting`. -/
def c1_spec_holds (srv : Server) (g : Game) (evs : List (Nat × Event)) : Bool :=
  (reach_min_times srv g evs).all (fun t0 =>
    (game_start_times (run srv g evs).2).all (fun ts => t0 + 5 ≤ ts))

/-- C2 as stated by the spec, as a decidable predicate on a run: when the
run leaves exactly one registered player with positive health, exactly one
`GameOver` is broadcast over the whole run and it names that survivor. -/
def c2_spec_holds (srv : Server) (g : Game) (evs : List (Nat × Event)) : Bool :=
  match alive_usernames (run srv g evs).1 with
  | [w] => game_over_list ((run srv g evs).2.map Prod.snd) == [w]
  | _ => true

/-- Model of the client's mirror of remote players,
`HashMap<String, (Position, Rotation)>` in src/client/src/main.rs. -/
abbrev StrMap := List (String × Position × Rotation)

def StrMap.find? : StrMap → String → Option (Position × Rotation)
  | [], _ => none
  | (k1, v1) :: rest, k => if k1 = k then some v1 else StrMap.find? rest k

def StrMap.insert : StrMap → String → Position × Rotation → StrMap
  | [], k, v => [(k, v)]
  | (k1, v1) :: rest, k, v =>
      if k1 = k then (k, v) :: rest else (k1, v1) :: StrMap.insert rest k v

def StrMap.erase : StrMap → String → StrMap
  | [], _ => []
  | (k1, v1) :: rest, k => if k1 = k then rest else (k1, v1) :: StrMap.erase rest k

/-- The client-side state mutated by the message match in
src/client/src/main.rs (rendering, maze generation and the local predicted
player position are outside this core and are not modelled). -/
structure ClientState where
  username : String
  running : Bool
  game_started : Bool
  player_dead : Bool
  game_over : Bool
  winner_name : String
  player_health : Nat
  other_players : StrMap
  deriving DecidableEq

/-- Model of the `match msg` arms of the client loop in
src/client/src/main.rs. `PlayerSpawn` and `PlayersInLobby` reach the
catch-all arm or mutate only unmodelled local-player fields, leaving the
modelled state unchanged; in particular the source match has no
`PlayerSpawn` arm, so it falls into the trailing wildcard arm. -/
def client_handle_message (cs : ClientState) : ServerMessage → ClientState
  | ServerMessage.gameStart => { cs with game_started := true }
  | ServerMessage.healthUpdate pid h =>
      if pid = cs.username then { cs with player_health := h } else cs
  | ServerMessage.playerMove pid pos rot _ =>
      if pid ≠ cs.username then
        { cs with other_players := StrMap.insert cs.other_players pid (pos, rot) }
      else cs
  | ServerMessage.playerDeath pid _ =>
      if pid = cs.username then { cs with player_dead := true }
      else { cs with other_players := StrMap.erase cs.other_players pid }
  | ServerMessage.joinGameError _ => { cs with running := false }
  | ServerMessage.error _ => { cs with running := false }
  | ServerMessage.gameOver w => { cs with game_over := true, winner_name := w }
  | ServerMessage.playersInLobby _ _ => cs
  | ServerMessage.playerSpawn _ _ => cs

/-- The `PlayersInLobby` broadcast `handle_join_game` sends after a
successful insert: count and username list taken from the updated
registry. -/
def lobby_msg (r : Registry) : Output :=
  Output.broadcast
    (ServerMessage.playersInLobby r.length ((Registry.values r).map Player.username))

/-- Per-join success check for C7: the handler's output holds no
`JoinGameError` and holds a `PlayersInLobby` broadcast whose count equals
the registry size after the join and whose player list has that many
entries. -/
def join_out_ok (g1 : Game) (out : List Output) : Bool :=
  !(out.any is_join_error) &&
    out.any (fun o =>
      match o with
      | Output.broadcast (ServerMessage.playersInLobby c names) =>
          c == g1.players.length && names.length == g1.players.length
      | _ => false)

/-- C7 over a whole sequence of joins: every join in turn passes
`join_out_ok` against the state it produces. -/
def joins_ok (srv : Server) : Game → List (Nat × Addr × String) → Bool
  | _, [] => true
  | g, (t, a, u) :: rest =>
      let r := handle_join_game srv g t a u
      join_out_ok r.1 r.2 && joins_ok srv r.1 rest

/-! Concrete fixtures used by the counterexamples and witnesses. -/

/-- A server configured with `min_players = 1`, `max_players = 10`. -/
def srv_one : Server := { min_players := 1, max_players := 10 }

/-- A server configured with `min_players = 2`, `max_players = 10`
matching `src/server/src/main.rs` apart from the capacity. -/
def srv_two : Server := { min_players := 2, max_players := 10 }

/-- A single join at time 0 that makes the registry reach `min_players = 1`
while the match is `Waiting`. -/
def run_c1 : List (Nat × Event) := [(0, Event.join 0 "alice")]

/-- Two joins followed by eleven `ShotPlayer` events against `"bob"`:
the tenth shot drops bob to health 0 and the eleventh hits the dead
target again. -/
def run_c2 : List (Nat × Event) :=
  [(0, Event.join 0 "alice"), (1, Event.join 1 "bob"),
   (2, Event.shoot 0 "bob"), (3, Event.shoot 0 "bob"), (4, Event.shoot 0 "bob"),
   (5, Event.shoot 0 "bob"), (6, Event.shoot 0 "bob"), (7, Event.shoot 0 "bob"),
   (8, Event.shoot 0 "bob"), (9, Event.shoot 0 "bob"), (10, Event.shoot 0 "bob"),
   (11, Event.shoot 0 "bob"), (12, Event.shoot 0 "bob")]

/-- A game whose only registered player is `"alice"` at address 0 with
health 50 (mid-match state reachable after five hits). -/
def g_alice50 : Game :=
  { players := [(0, { fresh_player "alice" with health := 50 })],
    state := GameState.waiting, game_start_time := none, maze_level := 1 }

/-- A game with `"alice"` (health 37) registered at address 0. -/
def g_alice37 : Game :=
  { players := [(0, { fresh_player "alice" with health := 37 })],
    state := GameState.waiting, game_start_time := none, maze_level := 2 }

/-- A game with `"alice"` alive at address 0 and `"bob"` at health 5 at
address 1. -/
def g_bob5 : Game :=
  { players := [(0, fresh_player "alice"), (1, { fresh_player "bob" with health := 5 })],
    state := GameState.inProgress, game_start_time := some 0, maze_level := 1 }

/-- A game with `"alice"` alive at address 0 and `"bob"` already dead
(health 0) at address 1; `"alice"` is also dead in the shooter role test. -/
def g_bob0 : Game :=
  { players := [(0, { fresh_player "alice" with health := 0 }),
                (1, { fresh_player "bob" with health := 0 })],
    state := GameState.inProgress, game_start_time := some 0, maze_level := 1 }

/-- A sample position used by the witnesses. -/
def pos_w : Position := { x := 1, y := 2, z := 3 }

/-- A sample orientation used by the witnesses. -/
def rot_w : Rotation := { pitch := 4, yaw := 5, roll := 6 }

/-- Three joins with pairwise distinct usernames and addresses. -/
def js_w : List (Nat × Addr × String) :=
  [(0, 0, "alice"), (1, 1, "bob"), (2, 2, "carol")]

/-- A client whose own username is `"me"` and whose mirror map is empty. -/
def cs_me : ClientState :=
  { username := "me", running := true, game_started := true, player_dead := false,
    game_over := false, winner_name := "", player_health := 100,
    other_players := [] }

/-! Helper lemmas about the registry embedding of `HashMap`. -/

theorem Registry.find?_insert_self (r : Registry) (a : Addr) (p : Player) :
    Registry.find? (Registry.insert r a p) a = some p := by
  induction r with
  | nil => simp [Registry.insert, Registry.find?]
  | cons e rest ih =>
      obtain ⟨b, q⟩ := e
      by_cases h : b = a
      · simp [Registry.insert, Registry.find?, h]
      · simp [Registry.insert, Registry.find?, h, ih]

theorem Registry.find?_insert_ne (r : Registry) (a b : Addr) (p : Player)
    (h : b ≠ a) :
    Registry.find? (Registry.insert r a p) b = Registry.find? r b := by
  induction r with
  | nil => simp [Registry.insert, Registry.find?, Ne.symm h]
  | cons e rest ih =>
      obtain ⟨c, q⟩ := e
      by_cases hc : c = a
      · subst hc
        simp [Registry.insert, Registry.find?, Ne.symm h]
      · simp only [Registry.insert, if_neg hc]
        by_cases hb : c = b
        · simp [Registry.find?, hb]
        · simp [Registry.find?, hb, ih]

theorem Registry.insert_absent (r : Registry) (a : Addr) (p : Player)
    (h : Registry.find? r a = none) :
    Registry.insert r a p = r ++ [(a, p)] := by
  induction r with
  | nil => simp [Registry.insert]
  | cons e rest ih =>
      obtain ⟨b, q⟩ := e
      by_cases hb : b = a
      · simp [Registry.find?, hb] at h
      · simp only [Registry.find?, if_neg hb] at h
        simp [Registry.insert, hb, ih h]

theorem Registry.length_insert_present (r : Registry) (a : Addr) (p : Player)
    (h : (Registry.find? r a).isSome) :
    (Registry.insert r a p).length = r.length := by
  induction r with
  | nil => simp [Registry.find?] at h
  | cons e rest ih =>
      obtain ⟨b, q⟩ := e
      by_cases hb : b = a
      · simp [Registry.insert, hb]
      · simp only [Registry.find?, if_neg hb] at h
        simp [Registry.insert, hb, ih h]

theorem Registry.length_insert_absent (r : Registry) (a : Addr) (p : Player)
    (h : Registry.find? r a = none) :
    (Registry.insert r a p).length = r.length + 1 := by
  rw [Registry.insert_absent r a p h]
  simp

theorem Registry.find?_isSome_of_findByUsername (r : Registry) (u : String)
    (a : Addr) (p : Player)
    (h : Registry.findByUsername r u = some (a, p)) :
    (Registry.find? r a).isSome := by
  induction r with
  | nil => simp [Registry.findByUsername] at h
  | cons e rest ih =>
      obtain ⟨b, q⟩ := e
      by_cases hq : q.username = u
      · simp only [Registry.findByUsername, if_pos hq, Option.some.injEq,
          Prod.mk.injEq] at h
        obtain ⟨hb, -⟩ := h
        subst hb
        simp [Registry.find?]
      · simp only [Registry.findByUsername, if_neg hq] at h
        by_cases hb : b = a
        · simp [Registry.find?, hb]
        · simp [Registry.find?, hb, ih h]

theorem Registry.hasUsername_append (r s : Registry) (u : String) :
    Registry.hasUsername (r ++ s) u =
      (Registry.hasUsername r u || Registry.hasUsername s u) := by
  simp [Registry.hasUsername, Registry.values, List.any_append]

theorem Registry.find?_append_none (r s : Registry) (b : Addr)
    (h : Registry.find? r b = none) :
    Registry.find? (r ++ s) b = Registry.find? s b := by
  induction r with
  | nil => simp
  | cons e rest ih =>
      obtain ⟨c, q⟩ := e
      by_cases hc : c = b
      · simp [Registry.find?, hc] at h
      · simp only [Registry.find?, if_neg hc] at h
        simp [Registry.find?, hc, ih h]

/-! Helper lemmas for the output classifiers. -/

theorem death_count_append (xs ys : List Output) :
    death_count (xs ++ ys) = death_count xs + death_count ys := by
  simp [death_count, List.filter_append]

theorem is_death_msg_healthUpdate (pid : String) (h : Nat) :
    is_death_msg (Output.broadcast (ServerMessage.healthUpdate pid h)) = false := rfl

theorem is_death_msg_death (pid : String) (k : Option String) :
    is_death_msg (Output.broadcast (ServerMessage.playerDeath pid k)) = true := rfl

theorem is_death_msg_gameOver (w : String) :
    is_death_msg (Output.broadcast (ServerMessage.gameOver w)) = false := rfl

theorem game_over_list_healthUpdate (pid : String) (h : Nat) (rest : List Output) :
    game_over_list (Output.broadcast (ServerMessage.healthUpdate pid h) :: rest) =
      game_over_list rest := rfl

theorem game_over_list_death (pid : String) (k : Option String) (rest : List Output) :
    game_over_list (Output.broadcast (ServerMessage.playerDeath pid k) :: rest) =
      game_over_list rest := rfl

theorem game_over_list_gameOver (w : String) (rest : List Output) :
    game_over_list (Output.broadcast (ServerMessage.gameOver w) :: rest) =
      w :: game_over_list rest := rfl

/-! Helper lemmas for the client mirror map. -/

/-! Shape lemmas for the handlers' success paths. -/

theorem is_join_error_broadcast (m : ServerMessage) :
    is_join_error (Output.broadcast m) = false := rfl

/-- When the username is fresh and the registry is below capacity,
`handle_join_game` inserts the fresh record and broadcasts the lobby
update, prefixing a `GameStart` broadcast (and arming the countdown
timestamp) exactly when the updated size is within `[min_players,
max_players]`, the match is `Waiting`, and the countdown is unarmed. -/
theorem handle_join_game_success (srv : Server) (g : Game) (now : Nat)
    (addr : Addr) (u : String)
    (hdup : Registry.hasUsername g.players u = false)
    (hfull : g.players.length < srv.max_players) :
    handle_join_game srv g now addr u =
      if srv.min_players ≤ (Registry.insert g.players addr (fresh_player u)).length ∧
          (Registry.insert g.players addr (fresh_player u)).length ≤ srv.max_players ∧
          g.state = GameState.waiting ∧ g.game_start_time = none then
        ({ g with players := Registry.insert g.players addr (fresh_player u),
                  game_start_time := some now },
         [Output.broadcast ServerMessage.gameStart,
          lobby_msg (Registry.insert g.players addr (fresh_player u))])
      else
        ({ g with players := Registry.insert g.players addr (fresh_player u) },
         [lobby_msg (Registry.insert g.players addr (fresh_player u))]) := by
  unfold handle_join_game lobby_msg
  rw [hdup]
  simp only [Bool.false_eq_true, if_false]
  rw [if_neg (Nat.not_le.mpr hfull)]

/-- When the shooter address and the target username both resolve,
`handle_shoot` applies the damage to the target record and emits the
`HealthUpdate`, the `PlayerDeath` (when the new health is 0), and finally a
`GameOver` exactly when one registered player remains alive. -/
theorem handle_shoot_success (g : Game) (addr : Addr) (target : String)
    (shooter : Player) (target_addr : Addr) (tp : Player)
    (hs : Registry.find? g.players addr = some shooter)
    (ht : Registry.findByUsername g.players target = some (target_addr, tp)) :
    handle_shoot g addr target =
      ({ g with players :=
          Registry.insert g.players target_addr { tp with health := tp.health - 10 } },
       (if tp.health - 10 = 0 then
          [Output.broadcast (ServerMessage.healthUpdate tp.username (tp.health - 10)),
           Output.broadcast (ServerMessage.playerDeath tp.username (some shooter.username))]
        else
          [Output.broadcast (ServerMessage.healthUpdate tp.username (tp.health - 10))]) ++
        game_over_tail
          ((Registry.values
            (Registry.insert g.players target_addr { tp with health := tp.health - 10 })).filter
            (fun p => 0 < p.health))) := by
  unfold handle_shoot
  rw [hs, ht]
  dsimp only
  by_cases h0 : tp.health - 10 = 0
  · simp only [if_pos h0]
    rcases hf : (Registry.values
        (Registry.insert g.players target_addr { tp with health := tp.health - 10 })).filter
        (fun p => 0 < p.health) with _ | ⟨w, _ | ⟨y, rest⟩⟩ <;>
      simp [game_over_tail, hf]
  · simp only [if_neg h0]
    rcases hf : (Registry.values
        (Registry.insert g.players target_addr { tp with health := tp.health - 10 })).filter
        (fun p => 0 < p.health) with _ | ⟨w, _ | ⟨y, rest⟩⟩ <;>
      simp [game_over_tail, hf]

theorem game_over_list_append (xs ys : List Output) :
    game_over_list (xs ++ ys) = game_over_list xs ++ game_over_list ys := by
  induction xs with
  | nil => rfl
  | cons o rest ih =>
      match o with
      | Output.unicast a m => simpa [game_over_list] using ih
      | Output.broadcast (ServerMessage.gameOver w) => simpa [game_over_list] using ih
      | Output.broadcast (ServerMessage.error m) => simpa [game_over_list] using ih
      | Output.broadcast (ServerMessage.joinGameError m) => simpa [game_over_list] using ih
      | Output.broadcast (ServerMessage.playersInLobby c ns) => simpa [game_over_list] using ih
      | Output.broadcast ServerMessage.gameStart => simpa [game_over_list] using ih
      | Output.broadcast (ServerMessage.playerMove a b c d) => simpa [game_over_list] using ih
      | Output.broadcast (ServerMessage.playerDeath a b) => simpa [game_over_list] using ih
      | Output.broadcast (ServerMessage.playerSpawn a b) => simpa [game_over_list] using ih
      | Output.broadcast (ServerMessage.healthUpdate a b) => simpa [game_over_list] using ih

theorem death_count_game_over_tail (l : List Player) :
    death_count (game_over_tail l) = 0 := by
  rcases l with _ | ⟨w, _ | ⟨y, rest⟩⟩ <;> rfl

theorem game_over_list_game_over_tail (l : List Player) :
    game_over_list (game_over_tail l) = single_survivor (l.map Player.username) := by
  rcases l with _ | ⟨w, _ | ⟨y, rest⟩⟩ <;> rfl

theorem StrMap.find?_insert_same_key (m : StrMap) (k : String) (v : Position × Rotation) :
    StrMap.find? (StrMap.insert m k v) k = some v := by
  induction m with
  | nil => simp [StrMap.insert, StrMap.find?]
  | cons e rest ih =>
      obtain ⟨k1, v1⟩ := e
      by_cases h : k1 = k
      · simp [StrMap.insert, StrMap.find?, h]
      · simp [StrMap.insert, StrMap.find?, h, ih]

/-! Claim theorems. -/

/-- C3: a `JoinGame` whose username already belongs to a registered player,
or arriving when the registry size is at least `max_players`, answers the
sender with a unicast `JoinGameError` and leaves the game state — in
particular the registry — unchanged. -/
theorem c3_join_rejected (srv : Server) (g : Game) (now : Nat) (addr : Addr)
    (u : String)
    (h : Registry.hasUsername g.players u = true ∨
      srv.max_players ≤ g.players.length) :
    (handle_join_game srv g now addr u).1 = g ∧
    ∃ m, (handle_join_game srv g now addr u).2 =
      [Output.unicast addr (ServerMessage.joinGameError m)] := by
  unfold handle_join_game
  by_cases hdup : Registry.hasUsername g.players u = true
  · rw [if_pos hdup]
    exact ⟨rfl, _, rfl⟩
  · have hfull : srv.max_players ≤ g.players.length := h.resolve_left hdup
    rw [if_neg hdup, if_pos hfull]
    exact ⟨rfl, _, rfl⟩

/-- C3 witness: rejoining the username `"alice"`, already registered in
`g_alice50`, from the fresh address 5 is rejected and changes nothing. -/
theorem c3_witness :
    (handle_join_game srv_one g_alice50 0 5 "alice").1 = g_alice50 ∧
    ∃ m, (handle_join_game srv_one g_alice50 0 5 "alice").2 =
      [Output.unicast 5 (ServerMessage.joinGameError m)] :=
  c3_join_rejected srv_one g_alice50 0 5 "alice" (Or.inl (by decide))

/-- C4: a `ShotPlayer` with resolvable shooter and target updates the
target record to its previous health minus 10, where the subtraction
saturates at 0 (it equals the integer `max (health - 10) 0`), and the
handler broadcasts exactly one `PlayerDeath` when the new health is 0 and
none otherwise. -/
theorem c4_damage_saturates (g : Game) (addr : Addr) (target : String)
    (shooter : Player) (target_addr : Addr) (tp : Player)
    (hs : Registry.find? g.players addr = some shooter)
    (ht : Registry.findByUsername g.players target = some (target_addr, tp)) :
    Registry.find? (handle_shoot g addr target).1.players target_addr =
      some { tp with health := tp.health - 10 } ∧
    ((tp.health - 10 : Nat) : Int) = max ((tp.health : Int) - 10) 0 ∧
    death_count (handle_shoot g addr target).2 =
      (if tp.health - 10 = 0 then 1 else 0) := by
  rw [handle_shoot_success g addr target shooter target_addr tp hs ht]
  refine ⟨Registry.find?_insert_self _ _ _, by omega, ?_⟩
  rw [death_count_append, death_count_game_over_tail]
  by_cases h0 : tp.health - 10 = 0
  · rw [if_pos h0, if_pos h0]
    rfl
  · rw [if_neg h0, if_neg h0]
    rfl

/-- C4 witness: in `g_bob5` the target `"bob"` has health 5; one shot by
`"alice"` leaves bob's record at health 0 and produces exactly one
`PlayerDeath` broadcast. -/
theorem c4_witness :
    Registry.find? (handle_shoot g_bob5 0 "bob").1.players 1 =
      some { fresh_player "bob" with health := 0 } ∧
    death_count (handle_shoot g_bob5 0 "bob").2 = 1 := by
  have h := c4_damage_saturates g_bob5 0 "bob" (fresh_player "alice") 1
    { fresh_player "bob" with health := 5 } (by decide) (by decide)
  exact ⟨h.1.trans (by decide), (h.2.2).trans (by decide)⟩

/-- C5: a `Move` from a registered address stores the submitted position
and orientation in that player's record and broadcasts a `PlayerMove`
carrying that player's username and the submitted values unchanged. -/
theorem c5_move_echo (g : Game) (addr : Addr) (p : Player) (pos : Position)
    (rot : Rotation) (yc : Rat)
    (h : Registry.find? g.players addr = some p) :
    (handle_move g addr pos rot yc).1.players =
      Registry.insert g.players addr { p with position := pos, rotation := rot } ∧
    Registry.find? (handle_move g addr pos rot yc).1.players addr =
      some { p with position := pos, rotation := rot } ∧
    (handle_move g addr pos rot yc).2 =
      [Output.broadcast (ServerMessage.playerMove p.username pos rot yc)] := by
  unfold handle_move
  rw [h]
  exact ⟨rfl, Registry.find?_insert_self _ _ _, rfl⟩

/-- C5 witness: alice's move to `pos_w`/`rot_w` with yield 1/2 is stored
and echoed verbatim. -/
theorem c5_witness :
    Registry.find? (handle_move g_alice50 0 pos_w rot_w (Rat.mk' 1 2)).1.players 0 =
      some { { fresh_player "alice" with health := 50 } with
              position := pos_w, rotation := rot_w } ∧
    (handle_move g_alice50 0 pos_w rot_w (Rat.mk' 1 2)).2 =
      [Output.broadcast
        (ServerMessage.playerMove "alice" pos_w rot_w (Rat.mk' 1 2))] := by
  have h := c5_move_echo g_alice50 0 { fresh_player "alice" with health := 50 }
    pos_w rot_w (Rat.mk' 1 2) (by decide)
  exact ⟨h.2.1, h.2.2⟩

/-- C6: a `Move` or `ShotPlayer` from an unregistered address, and a
`ShotPlayer` whose target username resolves to no registered player, leave
the game state untouched and send nothing at all. -/
theorem c6_silent_drop (g : Game) (addr : Addr) (pos : Position)
    (rot : Rotation) (yc : Rat) (target : String) :
    (Registry.find? g.players addr = none →
      handle_move g addr pos rot yc = (g, []) ∧
      handle_shoot g addr target = (g, [])) ∧
    (Registry.findByUsername g.players target = none →
      handle_shoot g addr target = (g, [])) := by
  constructor
  · intro h
    constructor
    · unfold handle_move
      rw [h]
    · unfold handle_shoot
      rw [h]
  · intro h
    unfold handle_shoot
    cases hs : Registry.find? g.players addr with
    | none => rfl
    | some shooter => rw [h]

/-- C6 witness: on the empty registry of a fresh game, a move and a shot
from address 0 and a shot at the unknown name `"bob"` are all dropped
silently. -/
theorem c6_witness :
    handle_move (Game.new 1) 0 pos_w rot_w 0 = (Game.new 1, []) ∧
    handle_shoot (Game.new 1) 0 "bob" = (Game.new 1, []) := by
  have h := c6_silent_drop (Game.new 1) 0 pos_w rot_w 0 "bob"
  exact ⟨(h.1 rfl).1, (h.1 rfl).2⟩

/-- C9: a registered target whose health is already 0 is still a valid
target (and the shooter's own health is never examined): the shot leaves
the target registered at health 0, broadcasts `HealthUpdate` with health 0,
and broadcasts a further `PlayerDeath` naming the present shooter as
killer. -/
theorem c9_dead_target_shot_again (g : Game) (addr : Addr) (target : String)
    (shooter : Player) (target_addr : Addr) (tp : Player)
    (hs : Registry.find? g.players addr = some shooter)
    (ht : Registry.findByUsername g.players target = some (target_addr, tp))
    (hdead : tp.health = 0) :
    Registry.find? (handle_shoot g addr target).1.players target_addr =
      some { tp with health := 0 } ∧
    Output.broadcast (ServerMessage.healthUpdate tp.username 0) ∈
      (handle_shoot g addr target).2 ∧
    Output.broadcast (ServerMessage.playerDeath tp.username (some shooter.username)) ∈
      (handle_shoot g addr target).2 := by
  have h0 : tp.health - 10 = 0 := by omega
  rw [handle_shoot_success g addr target shooter target_addr tp hs ht, h0]
  refine ⟨Registry.find?_insert_self _ _ _, ?_, ?_⟩ <;> simp

/-- C9 witness: in `g_bob0` both alice (the shooter) and bob (the target)
are already dead; alice's further shot at bob keeps bob registered at
health 0, re-broadcasts `HealthUpdate` 0, and broadcasts another
`PlayerDeath` naming alice. -/
theorem c9_witness :
    Registry.find? (handle_shoot g_bob0 0 "bob").1.players 1 =
      some { fresh_player "bob" with health := 0 } ∧
    Output.broadcast (ServerMessage.healthUpdate "bob" 0) ∈
      (handle_shoot g_bob0 0 "bob").2 ∧
    Output.broadcast (ServerMessage.playerDeath "bob" (some "alice")) ∈
      (handle_shoot g_bob0 0 "bob").2 := by
  have h := c9_dead_target_shot_again g_bob0 0 "bob"
    { fresh_player "alice" with health := 0 } 1
    { fresh_player "bob" with health := 0 } (by decide) (by decide) (by decide)
  exact ⟨h.1, h.2.1, h.2.2⟩

/-- C1 counterexample: with `min_players = 1`, the single join of the run
`run_c1` makes the registry first reach the minimum at time 0 while the
match is `Waiting`, and a `GameStart` broadcast is sent at time 0 — not at
or after 5 seconds — so the claimed property is false on this run. -/
theorem c1_counterexample :
    reach_min_times srv_one (Game.new 1) run_c1 = [0] ∧
    game_start_times (run srv_one (Game.new 1) run_c1).2 = [0] ∧
    c1_spec_holds srv_one (Game.new 1) run_c1 = false := by decide

/-- C1 amended: when a join makes the registry size reach a value in
`[min_players, max_players]` while the match is `Waiting` with the
countdown unarmed, the `GameStart` broadcast is emitted immediately by
that same join handler call (the handler merely arms the countdown
timestamp at that moment). -/
theorem c1_game_start_immediate (srv : Server) (g : Game) (now : Nat)
    (addr : Addr) (u : String)
    (hdup : Registry.hasUsername g.players u = false)
    (haddr : Registry.find? g.players addr = none)
    (hfull : g.players.length < srv.max_players)
    (hw : g.state = GameState.waiting)
    (htimer : g.game_start_time = none)
    (hmin : srv.min_players ≤ g.players.length + 1) :
    Output.broadcast ServerMessage.gameStart ∈ (handle_join_game srv g now addr u).2 ∧
    (handle_join_game srv g now addr u).1.game_start_time = some now := by
  have hlen := Registry.length_insert_absent g.players addr (fresh_player u) haddr
  rw [handle_join_game_success srv g now addr u hdup hfull]
  rw [if_pos ⟨by omega, by omega, hw, htimer⟩]
  exact ⟨by simp, rfl⟩

/-- C1 witness: the very first join on a `min_players = 1` server
broadcasts `GameStart` at once and arms the countdown at time 0. -/
theorem c1_witness :
    Output.broadcast ServerMessage.gameStart ∈
      (handle_join_game srv_one (Game.new 1) 0 0 "alice").2 ∧
    (handle_join_game srv_one (Game.new 1) 0 0 "alice").1.game_start_time = some 0 :=
  c1_game_start_immediate srv_one (Game.new 1) 0 0 "alice" (by decide) (by decide)
    (by decide) (by decide) (by decide) (by decide)

/-- C2 counterexample: in `run_c2`, eleven shots at `"bob"` leave
`"alice"` as the unique registered player with positive health, yet two
`GameOver` broadcasts are sent over the match (one for the killing shot,
one for the further shot at the dead target), so "exactly one `GameOver`"
is false on this run. -/
theorem c2_counterexample :
    alive_usernames (run srv_two (Game.new 1) run_c2).1 = ["alice"] ∧
    game_over_list ((run srv_two (Game.new 1) run_c2).2.map Prod.snd) =
      ["alice", "alice"] ∧
    c2_spec_holds srv_two (Game.new 1) run_c2 = false := by decide

/-- C2 amended: every processed `ShotPlayer` ends by broadcasting
`GameOver` naming the survivor exactly when the registry is left with
exactly one alive player — so one `GameOver` is broadcast per qualifying
damage event (hence possibly several per match), not exactly one per
match. -/
theorem c2_game_over_per_event (g : Game) (addr : Addr) (target : String)
    (shooter : Player) (target_addr : Addr) (tp : Player)
    (hs : Registry.find? g.players addr = some shooter)
    (ht : Registry.findByUsername g.players target = some (target_addr, tp)) :
    game_over_list (handle_shoot g addr target).2 =
      single_survivor (alive_usernames (handle_shoot g addr target).1) := by
  rw [handle_shoot_success g addr target shooter target_addr tp hs ht]
  rw [game_over_list_append, game_over_list_game_over_tail]
  by_cases h0 : tp.health - 10 = 0
  · rw [if_pos h0]
    rfl
  · rw [if_neg h0]
    rfl

/-- C2 witness: alice's shot dropping bob from health 5 to 0 leaves alice
the sole survivor and the handler's output carries the matching single
`GameOver`. -/
theorem c2_witness :
    game_over_list (handle_shoot g_bob5 0 "bob").2 =
      single_survivor (alive_usernames (handle_shoot g_bob5 0 "bob").1) :=
  c2_game_over_per_event g_bob5 0 "bob" (fresh_player "alice") 1
    { fresh_player "bob" with health := 5 } (by decide) (by decide)

/-- C8 counterexample: a `PlayerSpawn` for the non-self username `"bob"`
leaves the client state — in particular the mirror map — completely
unchanged: no entry is created, refuting the claimed upsert on
`PlayerSpawn`. (The client's message match in src/client/src/main.rs has
no `PlayerSpawn` arm; the message falls into the wildcard arm.) -/
theorem c8_counterexample :
    client_handle_message cs_me (ServerMessage.playerSpawn "bob" pos_w) = cs_me ∧
    StrMap.find?
      (client_handle_message cs_me
        (ServerMessage.playerSpawn "bob" pos_w)).other_players "bob" = none := by
  decide

/-- C8 amended: for a non-self username the client upserts its mirror
entry on `PlayerMove` (creating it if absent, otherwise overwriting
position and orientation) and removes it on `PlayerDeath`; `PlayerSpawn`
is ignored and changes nothing. -/
theorem c8_client_mirror (cs : ClientState) (pid : String) (pos : Position)
    (rot : Rotation) (yc : Rat) (killer : Option String)
    (h : pid ≠ cs.username) :
    (client_handle_message cs
        (ServerMessage.playerMove pid pos rot yc)).other_players =
      StrMap.insert cs.other_players pid (pos, rot) ∧
    StrMap.find?
      (client_handle_message cs
        (ServerMessage.playerMove pid pos rot yc)).other_players pid =
      some (pos, rot) ∧
    (client_handle_message cs
        (ServerMessage.playerDeath pid killer)).other_players =
      StrMap.erase cs.other_players pid ∧
    client_handle_message cs (ServerMessage.playerSpawn pid pos) = cs := by
  refine ⟨?_, ?_, ?_, rfl⟩
  · simp [client_handle_message, h]
  · simp [client_handle_message, h, StrMap.find?_insert_same_key]
  · simp [client_handle_message, h]

/-- C8 witness: for the client `"me"`, a `PlayerMove` of `"bob"` creates
the mirror entry with the submitted transform, a `PlayerDeath` of `"bob"`
removes it, and a `PlayerSpawn` of `"bob"` is ignored. -/
theorem c8_witness :
    StrMap.find?
      (client_handle_message cs_me
        (ServerMessage.playerMove "bob" pos_w rot_w 0)).other_players "bob" =
      some (pos_w, rot_w) ∧
    (client_handle_message cs_me
        (ServerMessage.playerDeath "bob" none)).other_players =
      StrMap.erase cs_me.other_players "bob" ∧
    client_handle_message cs_me (ServerMessage.playerSpawn "bob" pos_w) = cs_me := by
  have h := c8_client_mirror cs_me "bob" pos_w rot_w 0 none (by decide)
  exact ⟨h.2.1, h.2.2.1, h.2.2.2⟩

/-- C10 counterexample: address 0 is registered as `"alice"` (health 50)
and no other player exists, so `"alice"` is "a username not used by any
other player"; yet the rejoin is rejected with `JoinGameError` and the
record is not replaced by a fresh one — the claimed rename-and-reset does
not happen because the duplicate check also matches the sender's own
record. -/
theorem c10_counterexample :
    handle_join_game srv_one g_alice50 7 0 "alice" =
      (g_alice50,
       [Output.unicast 0 (ServerMessage.joinGameError "Username already taken")]) ∧
    Registry.find? (handle_join_game srv_one g_alice50 7 0 "alice").1.players 0 ≠
      some (fresh_player "alice") := by
  decide

/-- C10 amended: a `JoinGame` from an already-registered address whose
username is used by no registered record (the sender's own current record
included), arriving while the registry is below `max_players`, replaces
that address's record in place with a fresh one (health 100, default
position and orientation, pistol) without changing the registry size, and
no `JoinGameError` is sent. -/
theorem c10_rejoin_replaces (srv : Server) (g : Game) (now : Nat)
    (addr : Addr) (u : String) (p : Player)
    (hreg : Registry.find? g.players addr = some p)
    (hdup : Registry.hasUsername g.players u = false)
    (hfull : g.players.length < srv.max_players) :
    (handle_join_game srv g now addr u).1.players.length = g.players.length ∧
    Registry.find? (handle_join_game srv g now addr u).1.players addr =
      some (fresh_player u) ∧
    (∀ b, b ≠ addr →
      Registry.find? (handle_join_game srv g now addr u).1.players b =
        Registry.find? g.players b) ∧
    (handle_join_game srv g now addr u).2.any is_join_error = false := by
  have hsome : (Registry.find? g.players addr).isSome := by
    rw [hreg]
    rfl
  rw [handle_join_game_success srv g now addr u hdup hfull]
  split
  · exact ⟨Registry.length_insert_present _ _ _ hsome,
      Registry.find?_insert_self _ _ _,
      fun b hb => Registry.find?_insert_ne _ _ _ _ hb, rfl⟩
  · exact ⟨Registry.length_insert_present _ _ _ hsome,
      Registry.find?_insert_self _ _ _,
      fun b hb => Registry.find?_insert_ne _ _ _ _ hb, rfl⟩

/-- C10 witness: address 0 (registered as `"alice"` at health 37) rejoins
as `"bob"`: the registry keeps size 1 and address 0 now holds the fresh
`"bob"` record. -/
theorem c10_witness :
    (handle_join_game srv_one g_alice37 0 0 "bob").1.players.length = 1 ∧
    Registry.find? (handle_join_game srv_one g_alice37 0 0 "bob").1.players 0 =
      some (fresh_player "bob") := by
  have h := c10_rejoin_replaces srv_one g_alice37 0 0 "bob"
    { fresh_player "alice" with health := 37 } (by decide) (by decide) (by decide)
  exact ⟨h.1, h.2.1⟩

/-- Helper for C7: from any state whose registry has room for all pending
joins and avoids all their usernames and addresses, every join of the
sequence succeeds and broadcasts a size-correct `PlayersInLobby`. -/
theorem joins_ok_of_fresh (srv : Server) (js : List (Nat × Addr × String)) :
    ∀ g : Game,
      g.players.length + js.length ≤ srv.max_players →
      (js.map (fun j => j.2.1)).Nodup →
      (js.map (fun j => j.2.2)).Nodup →
      (∀ j ∈ js, Registry.hasUsername g.players j.2.2 = false ∧
        Registry.find? g.players j.2.1 = none) →
      joins_ok srv g js = true := by
  induction js with
  | nil =>
      intro g _ _ _ _
      rfl
  | cons j rest ih =>
      obtain ⟨t, a, u⟩ := j
      intro g hlen hA hU hfresh
      obtain ⟨hdup, haddr⟩ := hfresh (t, a, u) (List.mem_cons_self _ _)
      have hlen' : g.players.length + (rest.length + 1) ≤ srv.max_players := by
        simpa using hlen
      have hfull : g.players.length < srv.max_players := by omega
      have hins := Registry.insert_absent g.players a (fresh_player u) haddr
      have hlen1 := Registry.length_insert_absent g.players a (fresh_player u) haddr
      have hAc : a ∉ rest.map (fun j => j.2.1) ∧
          (rest.map (fun j => j.2.1)).Nodup := List.nodup_cons.mp hA
      have hUc : u ∉ rest.map (fun j => j.2.2) ∧
          (rest.map (fun j => j.2.2)).Nodup := List.nodup_cons.mp hU
      have hstep : ∀ g' : Game,
          g'.players = Registry.insert g.players a (fresh_player u) →
          joins_ok srv g' rest = true := by
        intro g' hg'
        apply ih g'
        · rw [hg', hlen1]
          omega
        · exact hAc.2
        · exact hUc.2
        · intro j' hj'
          obtain ⟨hdup', haddr'⟩ := hfresh j' (List.mem_cons_of_mem _ hj')
          have hu_ne : u ≠ j'.2.2 := by
            intro he
            exact hUc.1 (by rw [he]; exact List.mem_map_of_mem _ hj')
          have ha_ne : a ≠ j'.2.1 := by
            intro he
            exact hAc.1 (by rw [he]; exact List.mem_map_of_mem _ hj')
          rw [hg', hins]
          constructor
          · rw [Registry.hasUsername_append, hdup']
            simp [Registry.hasUsername, Registry.values, fresh_player, Player.new,
              hu_ne]
          · rw [Registry.find?_append_none _ _ _ haddr']
            simp [Registry.find?, ha_ne]
      have hjoin := handle_join_game_success srv g t a u hdup hfull
      show (join_out_ok (handle_join_game srv g t a u).1
          (handle_join_game srv g t a u).2 &&
        joins_ok srv (handle_join_game srv g t a u).1 rest) = true
      rw [hjoin]
      by_cases hc : srv.min_players ≤ (Registry.insert g.players a (fresh_player u)).length ∧
          (Registry.insert g.players a (fresh_player u)).length ≤ srv.max_players ∧
          g.state = GameState.waiting ∧ g.game_start_time = none
      · rw [if_pos hc, Bool.and_eq_true]
        exact ⟨by simp [join_out_ok, lobby_msg, is_join_error, Registry.values],
          hstep _ rfl⟩
      · rw [if_neg hc, Bool.and_eq_true]
        exact ⟨by simp [join_out_ok, lobby_msg, is_join_error, Registry.values],
          hstep _ rfl⟩

/-- C7: for any sequence of joins with pairwise distinct usernames and
pairwise distinct addresses, of length at most `max_players`, starting
from a fresh game every join succeeds (no `JoinGameError`) and each join's
output carries a `PlayersInLobby` broadcast whose count equals the registry
size at that moment and whose player list has that many entries. -/
theorem c7_distinct_joins_all_succeed (srv : Server) (ml : Nat)
    (js : List (Nat × Addr × String))
    (hA : (js.map (fun j => j.2.1)).Nodup)
    (hU : (js.map (fun j => j.2.2)).Nodup)
    (hlen : js.length ≤ srv.max_players) :
    joins_ok srv (Game.new ml) js = true := by
  apply joins_ok_of_fresh srv js (Game.new ml) (by simpa [Game.new] using hlen) hA hU
  intro j hj
  exact ⟨rfl, rfl⟩

/-- C7 witness: the three distinct joins of `js_w` on a `min_players = 2`,
`max_players = 10` server all succeed with size-correct lobby
broadcasts. -/
theorem c7_witness : joins_ok srv_two (Game.new 1) js_w = true :=
  c7_distinct_joins_all_succeed srv_two 1 js_w (by decide) (by decide) (by decide)

end MazeWars
